import Mathlib

/-!
Verification of the VFD SWMR coordination engine of H5Fvfd_swmr.c.

This development gives a shallow embedding of the tick-driven
single-writer/multi-reader coordination engine: the shadow-file index and
its in-memory mirror, the deferred-free queue, the writer metadata-file
update, the delay-write predicate, the reader end-of-tick diff, the
close/flush path, the shadow-index enlargement, and the EOT scheduling
queue.  Machine integers are modelled as Nat (the C code never relies on
wrap-around in the modelled paths; the one explicit overflow guard, in
vfd_swmr_enlarge_shadow_index, is rendered with explicit UINT32_MAX
arithmetic).  I/O is modelled as an explicit trace of write events, and
fallible paths return Except.
-/

/-- Magic/field sizes.  Modelled from the spec: the encoded index byte
length is magic (4) + tick (8) + entry count (4) + N uniform 16-byte
entries + checksum (4); the macro H5FD_MD_INDEX_SIZE lives in a header
outside src/. -/
def H5FD_MD_INDEX_SIZE (n : Nat) : Nat := 4 + 8 + 4 + n * 16 + 4

/-- Modelled from the spec: one encoded index entry is four u32 fields
(16 bytes); the macro H5FD_MD_INDEX_ENTRY_SIZE lives outside src/. -/
def H5FD_MD_INDEX_ENTRY_SIZE : Nat := 16

/-- Modelled from the spec: the encoded header is magic (4) + page size
(4) + tick (8) + index offset (8) + index length (8) + checksum (4); the
macro H5FD_MD_HEADER_SIZE lives outside src/. -/
def H5FD_MD_HEADER_SIZE : Nat := 4 + 4 + 8 + 8 + 8 + 4

/-- Header offset in the shadow file (H5FD_MD_HEADER_OFF, outside src/). -/
def H5FD_MD_HEADER_OFF : Nat := 0

/-- Largest u32 value, as used by the overflow guard in
vfd_swmr_enlarge_shadow_index. -/
def UINT32_MAX : Nat := 4294967295

/-- Modelled from the spec: a deterministic 32-bit metadata checksum over
a byte sequence (H5_checksum_metadata lives in H5checksum.c, outside
src/).  Its exact value is irrelevant to every claim; only that it is a
function of the image bytes matters. -/
def H5_checksum_metadata (image : List Nat) : Nat :=
  (image.foldl (fun a b => a + b) 0) % 4294967296

/-- In-memory metadata-file index entry (H5FD_vfd_swmr_idx_entry_t,
declared outside src/; only the fields that H5Fvfd_swmr.c reads or
writes are modelled).  entry_ptr holds the pending image bytes of the
page-buffer entry, or none for the C NULL pointer. -/
structure H5FD_vfd_swmr_idx_entry_t where
  hdf5_page_offset : Nat
  md_file_page_offset : Nat
  length : Nat
  chksum : Nat
  entry_ptr : Option (List Nat)
  delayed_flush : Nat
deriving Repr, DecidableEq, Inhabited

/-- Deferred-free record (shadow_defree_t): a shadow-file byte range
scheduled for return to the shadow free-space manager, stamped with the
tick at which it was scheduled. -/
structure shadow_defree_t where
  offset : Nat
  length : Nat
  tick_num : Nat
deriving Repr, DecidableEq, Inhabited

/-- Configuration fields of H5F_vfd_swmr_config_t consumed by the
modelled code. -/
structure H5F_vfd_swmr_config_t where
  writer : Bool
  md_pages_reserved : Nat
  tick_len : Nat
  max_lag : Nat
  flush_raw_data : Bool
deriving Repr, DecidableEq

/-- POSIX struct timespec, as used for the end-of-tick deadlines. -/
structure timespec where
  tv_sec : Int
  tv_nsec : Int
deriving Repr, DecidableEq

/-- Fields of H5F_shared_t touched by the modelled functions.  The
deferred-free queue shadow_defrees is a list whose head is the TAILQ
head (newest entry; insertion is TAILQ_INSERT_HEAD) and whose last
element is the TAILQ tail (oldest entry).  mdf_idx is the in-memory
index mirror: none models a NULL pointer, and when present the list has
mdf_idx_len slots of which the first mdf_idx_entries_used are in use. -/
structure H5F_shared_t where
  vfd_swmr_writer : Bool
  tick_num : Nat
  vfd_swmr_config : H5F_vfd_swmr_config_t
  fs_page_size : Nat
  shadow_defrees : List shadow_defree_t
  writer_index_offset : Nat
  mdf_idx : Option (List H5FD_vfd_swmr_idx_entry_t)
  mdf_idx_len : Nat
  mdf_idx_entries_used : Nat
  old_mdf_idx : Option (List H5FD_vfd_swmr_idx_entry_t)
  old_mdf_idx_len : Nat
  old_mdf_idx_entries_used : Nat
  vfd_swmr_md_eoa : Nat
  end_of_tick : timespec
deriving Repr, DecidableEq

/-- Modelled from the spec: the shadow free-space manager hands out
page-aligned ranges (H5MV_alloc lives in H5MV*.c, outside src/).  The
model is a bump allocator on the shadow end-of-allocation: it returns
the page-aligned address and the new end-of-allocation.  The call sites
in src/ only rely on the returned address being page-aligned and fresh. -/
def H5MV_alloc (eoa pageSize size : Nat) : Nat × Nat :=
  let addr := pageSize * ((eoa + pageSize - 1) / pageSize)
  (addr, addr + size)

/-- Push a deferred-free record for a shadow byte range at the head of
the queue, stamped with the current tick (shadow_range_defer_free). -/
def shadow_range_defer_free (shared : H5F_shared_t) (offset length : Nat) :
    H5F_shared_t :=
  { shared with shadow_defrees :=
      { offset := offset, length := length, tick_num := shared.tick_num }
        :: shared.shadow_defrees }

/-- Push a deferred-free record for the shadow image currently referenced
by an index entry (shadow_image_defer_free). -/
def shadow_image_defer_free (shared : H5F_shared_t)
    (entry : H5FD_vfd_swmr_idx_entry_t) : H5F_shared_t :=
  shadow_range_defer_free shared
    (entry.md_file_page_offset * shared.fs_page_size) entry.length

/-- Comparison used by HDqsort in H5F_update_vfd_swmr_metadata_file
(H5F__idx_entry_cmp orders entries by increasing hdf5_page_offset); the
sort itself is rendered as an insertion sort over this key order, which
is an adequate model of qsort with this comparator. -/
def idx_entry_le (a b : H5FD_vfd_swmr_idx_entry_t) : Prop :=
  a.hdf5_page_offset ≤ b.hdf5_page_offset

instance : DecidableRel idx_entry_le :=
  fun a b => inferInstanceAs (Decidable (a.hdf5_page_offset ≤ b.hdf5_page_offset))

instance : IsTotal H5FD_vfd_swmr_idx_entry_t idx_entry_le :=
  ⟨fun a b => Nat.le_total a.hdf5_page_offset b.hdf5_page_offset⟩

instance : IsTrans H5FD_vfd_swmr_idx_entry_t idx_entry_le :=
  ⟨fun _ _ _ h1 h2 => Nat.le_trans h1 h2⟩

/-- Sorting step of H5F_update_vfd_swmr_metadata_file: sort the first
num_entries index entries by increasing HDF5 page offset. -/
def sortIndex (l : List H5FD_vfd_swmr_idx_entry_t) :
    List H5FD_vfd_swmr_idx_entry_t :=
  List.insertionSort idx_entry_le l

/-- One positioned write on the shadow (metadata) file, recorded as a
trace event: a page-image write, the encoded-index write, or the
encoded-header write.  The index event records the fields the encoder
serializes (offset written at, tick, entry count, entries); the header
event records page size, tick, index offset and encoded index length. -/
inductive WriteEvent where
  | image (offset : Nat) (length : Nat)
  | index (offset : Nat) (tick : Nat) (num_entries : Nat)
      (entries : List H5FD_vfd_swmr_idx_entry_t)
  | header (page_size : Nat) (tick : Nat) (index_offset : Nat)
      (index_length : Nat)
deriving Repr, DecidableEq

/-- Recognizer for page-image write events. -/
def WriteEvent.isImage : WriteEvent → Bool
  | .image _ _ => true
  | _ => false

/-- Encode-and-write of the index (H5F__vfd_swmr_construct_write_md_idx):
the encoded block, carrying the current tick and num_entries entries, is
written at writer_index_offset. -/
def H5F__vfd_swmr_construct_write_md_idx (shared : H5F_shared_t)
    (num_entries : Nat) (index : List H5FD_vfd_swmr_idx_entry_t) :
    WriteEvent :=
  WriteEvent.index shared.writer_index_offset shared.tick_num num_entries index

/-- Encode-and-write of the header (H5F__vfd_swmr_construct_write_md_hdr):
the encoded header, carrying page size, current tick, writer_index_offset
and the encoded size of a num_entries index, is written at offset 0. -/
def H5F__vfd_swmr_construct_write_md_hdr (shared : H5F_shared_t)
    (num_entries : Nat) : WriteEvent :=
  WriteEvent.header shared.fs_page_size shared.tick_num
    shared.writer_index_offset (H5FD_MD_INDEX_SIZE num_entries)

/-- Accumulator for the per-entry loop of
H5F_update_vfd_swmr_metadata_file: the threaded end-of-allocation, the
deferred-free queue, the image-write trace so far, and the processed
entries in order. -/
structure upd_acc_t where
  md_eoa : Nat
  defrees : List shadow_defree_t
  events : List WriteEvent
  out : List H5FD_vfd_swmr_idx_entry_t
deriving Repr, DecidableEq

/-- Body of the per-entry loop of H5F_update_vfd_swmr_metadata_file.  An
entry with a NULL entry_ptr is skipped.  Otherwise: if the entry has a
previous image (md_file_page_offset nonzero) its range is prepended to
the deferred-free queue; fresh page-aligned shadow space is allocated;
the entry's md_file_page_offset and chksum are updated; the image is
written; and entry_ptr is reset to NULL. -/
def upd_process_one (tick pageSize : Nat) (acc : upd_acc_t)
    (e : H5FD_vfd_swmr_idx_entry_t) : upd_acc_t :=
  match e.entry_ptr with
  | none => { acc with out := acc.out ++ [e] }
  | some image =>
    let defrees1 :=
      if e.md_file_page_offset ≠ 0 then
        { offset := e.md_file_page_offset * pageSize, length := e.length,
          tick_num := tick } :: acc.defrees
      else acc.defrees
    let alloc := H5MV_alloc acc.md_eoa pageSize e.length
    let md_addr := alloc.1
    let e1 : H5FD_vfd_swmr_idx_entry_t :=
      { e with md_file_page_offset := md_addr / pageSize,
               chksum := H5_checksum_metadata image,
               entry_ptr := none }
    { md_eoa := alloc.2,
      defrees := defrees1,
      events := acc.events ++ [WriteEvent.image md_addr e.length],
      out := acc.out ++ [e1] }

/-- Deferred-free record due for reclamation at the given tick: the loop
in H5F_update_vfd_swmr_metadata_file stops at the first record with
tick_num + max_lag > tick, so a record is reclaimed exactly when
tick_num + max_lag ≤ tick. -/
def defree_expired (tick max_lag : Nat) (d : shadow_defree_t) : Bool :=
  decide (d.tick_num + max_lag ≤ tick)

/-- Result of H5F_update_vfd_swmr_metadata_file: the updated shared
state, the processed (sorted) index as passed back through the caller's
array, the full shadow-file write trace of the call, and the records
released to the shadow free-space manager. -/
structure update_result_t where
  shared : H5F_shared_t
  index : List H5FD_vfd_swmr_idx_entry_t
  events : List WriteEvent
  freed : List shadow_defree_t
deriving Repr, DecidableEq

/-- Accumulator at the start of the per-entry loop of
H5F_update_vfd_swmr_metadata_file: the shared end-of-allocation and
deferred-free queue, an empty write trace, and no processed entries. -/
def upd_initial_acc (shared : H5F_shared_t) : upd_acc_t :=
  { md_eoa := shared.vfd_swmr_md_eoa, defrees := shared.shadow_defrees,
    events := [], out := [] }

/-- Sort-then-process phase of H5F_update_vfd_swmr_metadata_file: sort
the first num_entries index entries and run the per-entry loop over
them. -/
def upd_loop (shared : H5F_shared_t) (num_entries : Nat)
    (index : List H5FD_vfd_swmr_idx_entry_t) : upd_acc_t :=
  (sortIndex (index.take num_entries)).foldl
    (upd_process_one shared.tick_num shared.fs_page_size)
    (upd_initial_acc shared)

/-- Reclamation phase of H5F_update_vfd_swmr_metadata_file: while
tick ≤ max_lag nothing is reclaimed; otherwise the queue is walked from
its tail (the end of the list) and every record due for reclamation is
released, stopping at the first record not yet due.  Returns the
remaining queue and the released records (oldest first). -/
def upd_reclaim (tick max_lag : Nat) (q : List shadow_defree_t) :
    List shadow_defree_t × List shadow_defree_t :=
  if tick ≤ max_lag then (q, [])
  else ((q.reverse.dropWhile (defree_expired tick max_lag)).reverse,
        q.reverse.takeWhile (defree_expired tick max_lag))

/-- H5F_update_vfd_swmr_metadata_file: sort the first num_entries index
entries by HDF5 page offset; for each entry with a pending image, defer
the free of its previous image, allocate fresh shadow space, checksum
and write the image; then write the encoded index, then the encoded
header; finally walk the deferred-free queue from the tail (oldest) and
release every record with tick_num + max_lag ≤ tick_num to the
free-space manager, stopping at the first record not yet due — skipped
entirely while tick_num ≤ max_lag. -/
def H5F_update_vfd_swmr_metadata_file (shared : H5F_shared_t)
    (num_entries : Nat) (index : List H5FD_vfd_swmr_idx_entry_t) :
    update_result_t :=
  let acc := upd_loop shared num_entries index
  let reclaim :=
    upd_reclaim shared.tick_num shared.vfd_swmr_config.max_lag acc.defrees
  { shared := { shared with shadow_defrees := reclaim.1,
                            vfd_swmr_md_eoa := acc.md_eoa },
    index := acc.out,
    events := acc.events ++
      [H5F__vfd_swmr_construct_write_md_idx shared num_entries acc.out,
       H5F__vfd_swmr_construct_write_md_hdr shared num_entries],
    freed := reclaim.2 }

/-- Modelled from the spec: lookup(page) on the in-memory index mirror is
a binary search by hdf5_page_offset over the used entries
(vfd_swmr_pageno_to_mdf_idx_entry lives outside src/); on the sorted,
key-unique mirror a binary search coincides with a linear find. -/
def vfd_swmr_pageno_to_mdf_idx_entry
    (idx : List H5FD_vfd_swmr_idx_entry_t) (used : Nat) (page : Nat) :
    Option H5FD_vfd_swmr_idx_entry_t :=
  (idx.take used).find? (fun e => e.hdf5_page_offset == page)

/-- Index lookup step of H5F_vfd_swmr_writer__delay_write: a NULL
mdf_idx yields a NULL entry pointer, otherwise the page is looked up
among the used entries. -/
def delay_write_lookup (shared : H5F_shared_t) (page : Nat) :
    Option H5FD_vfd_swmr_idx_entry_t :=
  match shared.mdf_idx with
  | none => none
  | some idx =>
    vfd_swmr_pageno_to_mdf_idx_entry idx shared.mdf_idx_entries_used page

/-- Value H5F_vfd_swmr_writer__delay_write computes before its range
check: tick_num + max_lag when the page has no index entry; the entry's
delayed_flush when that is at least the current tick; 0 otherwise. -/
def delay_write_until (shared : H5F_shared_t) (page : Nat) : Nat :=
  match delay_write_lookup shared page with
  | none => shared.tick_num + shared.vfd_swmr_config.max_lag
  | some ie_ptr =>
    if ie_ptr.delayed_flush ≥ shared.tick_num then ie_ptr.delayed_flush
    else 0

/-- H5F_vfd_swmr_writer__delay_write: compute the until tick for the
page, fail (leaving the out-parameter unwritten) when a nonzero until
lies outside [tick_num, tick_num + max_lag], and otherwise store it. -/
def H5F_vfd_swmr_writer__delay_write (shared : H5F_shared_t)
    (page : Nat) : Except Unit Nat :=
  let untl := delay_write_until shared page
  if untl ≠ 0 ∧ (untl < shared.tick_num ∨
      shared.tick_num + shared.vfd_swmr_config.max_lag < untl) then
    Except.error ()
  else
    Except.ok untl

/-- vfd_swmr_enlarge_shadow_index: double the index length (saturating at
UINT32_MAX), allocate shadow space for the larger encoded index, copy
every old slot (the full old length) into the new array — the fresh tail
slots are rendered as default-filled, standing for the uninitialized
remainder of the malloc — update writer_index_offset to the new range,
and then push a deferred free of H5FD_MD_INDEX_SIZE old_mdf_idx_len
bytes at shared.writer_index_offset.  The source performs the
writer_index_offset assignment before that push, so the pushed offset is
the newly allocated idx_addr, not the old index offset; the embedding
reproduces that order faithfully. -/
def vfd_swmr_enlarge_shadow_index (shared : H5F_shared_t) : H5F_shared_t :=
  let old_mdf_idx := shared.mdf_idx.getD []
  let old_mdf_idx_len := shared.mdf_idx_len
  let new_mdf_idx_len :=
    if UINT32_MAX - old_mdf_idx_len ≥ old_mdf_idx_len then
      old_mdf_idx_len * 2
    else UINT32_MAX
  let idx_size := H5FD_MD_INDEX_SIZE new_mdf_idx_len
  let alloc := H5MV_alloc shared.vfd_swmr_md_eoa shared.fs_page_size idx_size
  let idx_addr := alloc.1
  let new_mdf_idx :=
    old_mdf_idx.take old_mdf_idx_len ++
      List.replicate (new_mdf_idx_len - old_mdf_idx_len) default
  let shared1 := { shared with
    writer_index_offset := idx_addr,
    mdf_idx := some new_mdf_idx,
    mdf_idx_len := new_mdf_idx_len,
    vfd_swmr_md_eoa := alloc.2 }
  shadow_range_defer_free shared1 shared1.writer_index_offset
    (H5FD_MD_INDEX_SIZE old_mdf_idx_len)

/-- Action on an out-of-scope collaborator performed by the reader
end-of-tick: a page-buffer eviction (H5PB_remove_entry), a
metadata-cache evict-or-refresh
(H5C_evict_or_refresh_all_entries_in_page), or the removal/re-insertion
of the file's entry on the EOT queue. -/
inductive ReaderAction where
  | pbRemove (page : Nat)
  | mdcEvictOrRefresh (page : Nat)
  | eotRemove
  | eotInsert
deriving Repr, DecidableEq

/-- Linear merge of the old and new sorted index arrays performed by
H5F_vfd_swmr_reader_end_of_tick, producing the removed_page list: a key
present in both with differing md_file_page_offset is recorded
(changed); a key only in the old index is recorded (removed); a key only
in the new index is skipped (added, no action); the trailing cleanup
loop records every leftover old key. -/
def readerDiff : List H5FD_vfd_swmr_idx_entry_t →
    List H5FD_vfd_swmr_idx_entry_t → List Nat
  | [], _ => []
  | o :: os, [] => o.hdf5_page_offset :: readerDiff os []
  | o :: os, n :: ns =>
    if o.hdf5_page_offset = n.hdf5_page_offset then
      (if o.md_file_page_offset ≠ n.md_file_page_offset then
        [n.hdf5_page_offset]
      else []) ++ readerDiff os ns
    else if o.hdf5_page_offset < n.hdf5_page_offset then
      o.hdf5_page_offset :: readerDiff os (n :: ns)
    else
      readerDiff (o :: os) ns
termination_by old new => old.length + new.length

/-- Result of H5F_vfd_swmr_reader_end_of_tick: the updated shared state,
the removed_page list (pages evicted), and the ordered trace of actions
on the page buffer, the metadata cache and the EOT queue. -/
structure reader_eot_result_t where
  shared : H5F_shared_t
  removed_page : List Nat
  actions : List ReaderAction
deriving Repr, DecidableEq

/-- H5F_vfd_swmr_reader_end_of_tick.  The header tick tmp_tick_num and
the on-disk index disk_idx stand for what
H5FD_vfd_swmr_get_tick_and_idx reads from the shadow file (that reader
VFD lives outside src/).  If the header tick equals the local tick the
function only removes and re-inserts the file's EOT-queue entry.
Otherwise it ping-pongs the two index mirrors, loads the new index,
diffs old against new, evicts every changed or removed page from the
page buffer and then, in a second pass, from the metadata cache, and
adopts the new tick. -/
def H5F_vfd_swmr_reader_end_of_tick (shared : H5F_shared_t)
    (tmp_tick_num : Nat) (disk_idx : List H5FD_vfd_swmr_idx_entry_t) :
    reader_eot_result_t :=
  if tmp_tick_num ≠ shared.tick_num then
    let old_list := (shared.mdf_idx.getD []).take shared.mdf_idx_entries_used
    let removed := readerDiff old_list disk_idx
    { shared := { shared with
        old_mdf_idx := shared.mdf_idx,
        old_mdf_idx_len := shared.mdf_idx_len,
        old_mdf_idx_entries_used := shared.mdf_idx_entries_used,
        mdf_idx := some disk_idx,
        mdf_idx_len := shared.old_mdf_idx_len,
        mdf_idx_entries_used := disk_idx.length,
        tick_num := tmp_tick_num },
      removed_page := removed,
      actions := removed.map ReaderAction.pbRemove ++
        removed.map ReaderAction.mdcEvictOrRefresh ++
        [ReaderAction.eotRemove, ReaderAction.eotInsert] }
  else
    { shared := shared, removed_page := [],
      actions := [ReaderAction.eotRemove, ReaderAction.eotInsert] }

/-- Action performed by H5F_vfd_swmr_close_or_flush, in order: the
empty-index write, the header write, closing the shadow-file descriptor,
unlinking the shadow file, closing the shadow free-space manager, and
releasing one deferred-free record. -/
inductive CloseAction where
  | writeIndex (num_entries : Nat)
  | writeHeader (tick : Nat) (num_entries : Nat)
  | closeFd
  | unlinkFile
  | closeFsm
  | freeDefree (d : shadow_defree_t)
deriving Repr, DecidableEq

/-- H5F_vfd_swmr_close_or_flush: write an empty index and then a header
to the shadow file; when closing, increment the tick, close and unlink
the shadow file, close its free-space manager, and release every
deferred-free record; when flushing, increment the tick (the wall-clock
end_of_tick recomputation reads the monotonic clock and is not
modelled). -/
def H5F_vfd_swmr_close_or_flush (shared : H5F_shared_t) (closing : Bool) :
    H5F_shared_t × List CloseAction :=
  let acts := [CloseAction.writeIndex 0,
               CloseAction.writeHeader shared.tick_num 0]
  if closing then
    ({ shared with tick_num := shared.tick_num + 1, shadow_defrees := [] },
     acts ++ [CloseAction.closeFd, CloseAction.unlinkFile,
              CloseAction.closeFsm] ++
       shared.shadow_defrees.map CloseAction.freeDefree)
  else
    ({ shared with tick_num := shared.tick_num + 1 }, acts)

/-- Entry of the global end-of-tick queue (eot_queue_entry_t); the
vfd_swmr_file pointer is rendered as a numeric identifier. -/
structure eot_queue_entry_t where
  vfd_swmr_writer : Bool
  tick_num : Nat
  end_of_tick : timespec
  vfd_swmr_file : Nat
deriving Repr, DecidableEq

/-- BSD timespeccmp with the ≤ comparator, as used by
H5F_vfd_swmr_insert_entry_eot: compare nanoseconds when the seconds
agree, otherwise compare seconds. -/
def timespec_le (a b : timespec) : Bool :=
  if a.tv_sec = b.tv_sec then decide (a.tv_nsec ≤ b.tv_nsec)
  else decide (a.tv_sec ≤ b.tv_sec)

/-- Deadline order on EOT queue entries. -/
def eot_le (a b : eot_queue_entry_t) : Bool :=
  timespec_le a.end_of_tick b.end_of_tick

/-- Tail-to-head scan of H5F_vfd_swmr_insert_entry_eot, acting on the
reversed queue (so the scanned head is the TAILQ tail): the new entry is
inserted immediately after (in queue order, i.e. immediately before in
reversed order) the first scanned entry whose end_of_tick is ≤ the new
entry's, and at the queue head when the scan exhausts the queue. -/
def eot_insert_scan (rq : List eot_queue_entry_t)
    (entry_ptr : eot_queue_entry_t) : List eot_queue_entry_t :=
  match rq with
  | [] => [entry_ptr]
  | prec_ptr :: rest =>
    if eot_le prec_ptr entry_ptr then entry_ptr :: prec_ptr :: rest
    else prec_ptr :: eot_insert_scan rest entry_ptr

/-- H5F_vfd_swmr_insert_entry_eot, as a transformation of the global EOT
queue (head of the list = TAILQ head): build the entry for the file and
insert it by the tail-to-head scan. -/
def H5F_vfd_swmr_insert_entry_eot (q : List eot_queue_entry_t)
    (entry_ptr : eot_queue_entry_t) : List eot_queue_entry_t :=
  (eot_insert_scan q.reverse entry_ptr).reverse

/-- Strict sortedness of an index slice by hdf5_page_offset, the
invariant asserted after the qsort in H5F_update_vfd_swmr_metadata_file
and by the sanity checks of the reader merge loop; it entails key
uniqueness. -/
def idx_sorted (l : List H5FD_vfd_swmr_idx_entry_t) : Prop :=
  List.Pairwise
    (fun a b => a.hdf5_page_offset < b.hdf5_page_offset) l

instance (l : List H5FD_vfd_swmr_idx_entry_t) : Decidable (idx_sorted l) :=
  inferInstanceAs (Decidable (List.Pairwise _ l))

/-- Specification of the reader eviction set: a page must be evicted
exactly when it is present in the old index and either also present in
the new index with a different shadow-file location (changed) or absent
from the new index (removed). -/
@[reducible] def evict_expected
    (old new : List H5FD_vfd_swmr_idx_entry_t) (p : Nat) : Prop :=
  ∃ eo ∈ old, eo.hdf5_page_offset = p ∧
    ((∃ en ∈ new, en.hdf5_page_offset = p ∧
        eo.md_file_page_offset ≠ en.md_file_page_offset) ∨
     (∀ en ∈ new, en.hdf5_page_offset ≠ p))

instance (old new : List H5FD_vfd_swmr_idx_entry_t) (p : Nat) :
    Decidable (evict_expected old new p) := by
  unfold evict_expected
  infer_instance

/-- Ascending-deadline ordering invariant of the global EOT queue. -/
def eot_sorted (q : List eot_queue_entry_t) : Prop :=
  List.Pairwise (fun a b => eot_le a b = true) q

instance (q : List eot_queue_entry_t) : Decidable (eot_sorted q) :=
  inferInstanceAs (Decidable (List.Pairwise _ q))

/-- Index entry literal used by the concrete scenarios. -/
def mkIdxEntry (page mdpage length : Nat) : H5FD_vfd_swmr_idx_entry_t :=
  { hdf5_page_offset := page, md_file_page_offset := mdpage,
    length := length, chksum := 0, entry_ptr := none, delayed_flush := 0 }

/-- Configuration used by the concrete scenarios: the spec's running
example (4096-byte pages, max_lag 3 unless noted). -/
def exConfig : H5F_vfd_swmr_config_t :=
  { writer := true, md_pages_reserved := 2, tick_len := 1, max_lag := 3,
    flush_raw_data := false }

/-- Writer shared state for the enlargement scenario: a full 4-slot
index whose encoded image lives at shadow offset 4096, shadow
end-of-allocation 8192, tick 5. -/
def exSharedC1 : H5F_shared_t :=
  { vfd_swmr_writer := true, tick_num := 5, vfd_swmr_config := exConfig,
    fs_page_size := 4096, shadow_defrees := [],
    writer_index_offset := 4096,
    mdf_idx := some [mkIdxEntry 1 2 4096, mkIdxEntry 3 4 4096,
                     mkIdxEntry 5 6 4096, mkIdxEntry 7 8 4096],
    mdf_idx_len := 4, mdf_idx_entries_used := 4,
    old_mdf_idx := none, old_mdf_idx_len := 0,
    old_mdf_idx_entries_used := 0,
    vfd_swmr_md_eoa := 8192, end_of_tick := { tv_sec := 0, tv_nsec := 0 } }

/-- Writer shared state for the reclamation boundary scenario: tick 2,
max_lag 1, one deferred-free record created at tick 1. -/
def exSharedC2 : H5F_shared_t :=
  { vfd_swmr_writer := true, tick_num := 2,
    vfd_swmr_config := { exConfig with max_lag := 1 },
    fs_page_size := 4096,
    shadow_defrees := [{ offset := 100, length := 10, tick_num := 1 }],
    writer_index_offset := 4096, mdf_idx := some [], mdf_idx_len := 0,
    mdf_idx_entries_used := 0, old_mdf_idx := none, old_mdf_idx_len := 0,
    old_mdf_idx_entries_used := 0, vfd_swmr_md_eoa := 8192,
    end_of_tick := { tv_sec := 0, tv_nsec := 0 } }

/-- Writer shared state for the delay-predicate scenarios: tick 4, one
index entry for page 7 whose delayed_flush is 6, one entry for page 9
whose delayed_flush has passed. -/
def exSharedC3 : H5F_shared_t :=
  { vfd_swmr_writer := true, tick_num := 4, vfd_swmr_config := exConfig,
    fs_page_size := 4096, shadow_defrees := [],
    writer_index_offset := 4096,
    mdf_idx := some [{ mkIdxEntry 7 2 4096 with delayed_flush := 6 },
                     { mkIdxEntry 9 3 4096 with delayed_flush := 1 }],
    mdf_idx_len := 4, mdf_idx_entries_used := 2,
    old_mdf_idx := none, old_mdf_idx_len := 0,
    old_mdf_idx_entries_used := 0,
    vfd_swmr_md_eoa := 8192, end_of_tick := { tv_sec := 0, tv_nsec := 0 } }

/-- Writer shared state with no in-memory index mirror yet (tick 1,
mdf_idx NULL), for the bootstrap scenario. -/
def exSharedC10 : H5F_shared_t :=
  { vfd_swmr_writer := true, tick_num := 1, vfd_swmr_config := exConfig,
    fs_page_size := 4096, shadow_defrees := [],
    writer_index_offset := 4096, mdf_idx := none, mdf_idx_len := 0,
    mdf_idx_entries_used := 0, old_mdf_idx := none, old_mdf_idx_len := 0,
    old_mdf_idx_entries_used := 0, vfd_swmr_md_eoa := 8192,
    end_of_tick := { tv_sec := 0, tv_nsec := 0 } }

/-- Reader shared state at local tick 2 whose current index mirror holds
the single entry for page 3 at shadow page 2 (the spec's reader-diff
scenario). -/
def exSharedC6 : H5F_shared_t :=
  { vfd_swmr_writer := false, tick_num := 2,
    vfd_swmr_config := { exConfig with writer := false },
    fs_page_size := 4096, shadow_defrees := [],
    writer_index_offset := 4096,
    mdf_idx := some [mkIdxEntry 3 2 4096],
    mdf_idx_len := 1, mdf_idx_entries_used := 1,
    old_mdf_idx := none, old_mdf_idx_len := 0,
    old_mdf_idx_entries_used := 0,
    vfd_swmr_md_eoa := 8192, end_of_tick := { tv_sec := 0, tv_nsec := 0 } }

/-- New on-disk index for the reader-diff scenario: page 3 moved to
shadow page 5, page 9 added at shadow page 6. -/
def exDiskC6 : List H5FD_vfd_swmr_idx_entry_t :=
  [mkIdxEntry 3 5 4096, mkIdxEntry 9 6 4096]

/-- Writer shared state for the write-order and close scenarios: tick 4,
two used index slots (page 7 with a pending image, page 3 clean), one
deferred-free record from tick 1. -/
def exSharedC4 : H5F_shared_t :=
  { vfd_swmr_writer := true, tick_num := 4, vfd_swmr_config := exConfig,
    fs_page_size := 4096, shadow_defrees := [],
    writer_index_offset := 4096,
    mdf_idx := some [{ mkIdxEntry 7 2 4096 with
                         entry_ptr := some [1, 2, 3] },
                     mkIdxEntry 3 4 4096],
    mdf_idx_len := 4, mdf_idx_entries_used := 2,
    old_mdf_idx := none, old_mdf_idx_len := 0,
    old_mdf_idx_entries_used := 0,
    vfd_swmr_md_eoa := 8192, end_of_tick := { tv_sec := 0, tv_nsec := 0 } }

/-- EOT queue entry literal used by the concrete scenarios. -/
def mkEotEntry (sec nsec : Int) (fileId : Nat) : eot_queue_entry_t :=
  { vfd_swmr_writer := false, tick_num := 1,
    end_of_tick := { tv_sec := sec, tv_nsec := nsec },
    vfd_swmr_file := fileId }

/-- Helper: the computed delay value, by case on the lookup result. -/
theorem delay_write_until_eq_of_lookup_none {shared : H5F_shared_t}
    {page : Nat} (h : delay_write_lookup shared page = none) :
    delay_write_until shared page =
      shared.tick_num + shared.vfd_swmr_config.max_lag := by
  unfold delay_write_until
  rw [h]

/-- Helper: the computed delay value when the lookup finds an entry. -/
theorem delay_write_until_eq_of_lookup_some {shared : H5F_shared_t}
    {page : Nat} {e : H5FD_vfd_swmr_idx_entry_t}
    (h : delay_write_lookup shared page = some e) :
    delay_write_until shared page =
      if e.delayed_flush ≥ shared.tick_num then e.delayed_flush else 0 := by
  unfold delay_write_until
  rw [h]

/-- Helper: unfolding of the delay-write range check. -/
theorem delay_write_eq_ite (shared : H5F_shared_t) (page : Nat) :
    H5F_vfd_swmr_writer__delay_write shared page =
      if delay_write_until shared page ≠ 0 ∧
          (delay_write_until shared page < shared.tick_num ∨
           shared.tick_num + shared.vfd_swmr_config.max_lag <
             delay_write_until shared page) then
        Except.error ()
      else Except.ok (delay_write_until shared page) := rfl

/-- Helper: when the lookup misses, the call succeeds with
tick_num + max_lag (the computed value always passes the range check). -/
theorem delay_write_ok_of_lookup_none {shared : H5F_shared_t} {page : Nat}
    (h : delay_write_lookup shared page = none) :
    H5F_vfd_swmr_writer__delay_write shared page =
      Except.ok (shared.tick_num + shared.vfd_swmr_config.max_lag) := by
  have hu := delay_write_until_eq_of_lookup_none h
  rw [delay_write_eq_ite, hu, if_neg (by omega)]

/-- C3: H5F_vfd_swmr_writer__delay_write stores tick_num + max_lag when
the page has no index entry, the entry's delayed_flush when that is at
least the current tick (provided it passes the range check), and 0
otherwise; every successful nonzero result lies in
[tick_num, tick_num + max_lag], and the call fails exactly when the
computed nonzero value falls outside that interval. -/
theorem claim_C3_delay_write_contract (shared : H5F_shared_t) (page : Nat) :
    (delay_write_lookup shared page = none →
      H5F_vfd_swmr_writer__delay_write shared page =
        Except.ok (shared.tick_num + shared.vfd_swmr_config.max_lag)) ∧
    (∀ e, delay_write_lookup shared page = some e →
      shared.tick_num ≤ e.delayed_flush →
      e.delayed_flush ≤ shared.tick_num + shared.vfd_swmr_config.max_lag →
      H5F_vfd_swmr_writer__delay_write shared page =
        Except.ok e.delayed_flush) ∧
    (∀ e, delay_write_lookup shared page = some e →
      e.delayed_flush < shared.tick_num →
      H5F_vfd_swmr_writer__delay_write shared page = Except.ok 0) ∧
    (∀ u, H5F_vfd_swmr_writer__delay_write shared page = Except.ok u →
      u ≠ 0 → shared.tick_num ≤ u ∧
        u ≤ shared.tick_num + shared.vfd_swmr_config.max_lag) ∧
    (H5F_vfd_swmr_writer__delay_write shared page = Except.error () ↔
      (delay_write_until shared page ≠ 0 ∧
        (delay_write_until shared page < shared.tick_num ∨
         shared.tick_num + shared.vfd_swmr_config.max_lag <
           delay_write_until shared page))) := by
  refine ⟨?_, ?_, ?_, ?_, ?_⟩
  · intro h
    exact delay_write_ok_of_lookup_none h
  · intro e h h1 h2
    have hu := delay_write_until_eq_of_lookup_some h
    rw [if_pos h1] at hu
    rw [delay_write_eq_ite, hu, if_neg (by omega)]
  · intro e h h1
    have hu := delay_write_until_eq_of_lookup_some h
    rw [if_neg (by omega)] at hu
    rw [delay_write_eq_ite, hu, if_neg (by omega)]
  · intro u hok hne
    rw [delay_write_eq_ite] at hok
    by_cases hc : delay_write_until shared page ≠ 0 ∧
        (delay_write_until shared page < shared.tick_num ∨
         shared.tick_num + shared.vfd_swmr_config.max_lag <
           delay_write_until shared page)
    · rw [if_pos hc] at hok
      exact absurd hok (by simp)
    · rw [if_neg hc] at hok
      have : u = delay_write_until shared page := by
        injection hok with h
        exact h.symm
      omega
  · rw [delay_write_eq_ite]
    by_cases hc : delay_write_until shared page ≠ 0 ∧
        (delay_write_until shared page < shared.tick_num ∨
         shared.tick_num + shared.vfd_swmr_config.max_lag <
           delay_write_until shared page)
    · rw [if_pos hc]
      simp [hc]
    · rw [if_neg hc]
      simp [hc]

/-- Witness for C3 at a concrete state: page 7 has an index entry with
delayed_flush 6 ≥ tick 4, so the call stores 6. -/
theorem claim_C3_witness :
    H5F_vfd_swmr_writer__delay_write exSharedC3 7 = Except.ok 6 :=
  (claim_C3_delay_write_contract exSharedC3 7).2.1
    { mkIdxEntry 7 2 4096 with delayed_flush := 6 }
    (by decide) (by decide) (by decide)

/-- C7: when the tick read from the shadow-file header equals the local
tick, the reader end-of-tick changes nothing in the shared state,
evicts nothing, and only removes and re-inserts the file's EOT-queue
entry. -/
theorem claim_C7_reader_eot_idempotent (shared : H5F_shared_t)
    (tmp_tick_num : Nat) (disk_idx : List H5FD_vfd_swmr_idx_entry_t)
    (h : tmp_tick_num = shared.tick_num) :
    H5F_vfd_swmr_reader_end_of_tick shared tmp_tick_num disk_idx =
      { shared := shared, removed_page := [],
        actions := [ReaderAction.eotRemove, ReaderAction.eotInsert] } := by
  unfold H5F_vfd_swmr_reader_end_of_tick
  simp [h]

/-- Witness for C7: a reader at tick 2 observing header tick 2. -/
theorem claim_C7_witness :
    H5F_vfd_swmr_reader_end_of_tick exSharedC6 2 exDiskC6 =
      { shared := exSharedC6, removed_page := [],
        actions := [ReaderAction.eotRemove, ReaderAction.eotInsert] } :=
  claim_C7_reader_eot_idempotent exSharedC6 2 exDiskC6 rfl

/-- C8: on a writer close, an empty index (entry count 0) and then a
header are written, the tick is incremented, the shadow file is closed
and unlinked, its free-space manager is closed, and every deferred-free
record is released, leaving the queue empty. -/
theorem claim_C8_close_path (shared : H5F_shared_t) :
    H5F_vfd_swmr_close_or_flush shared true =
      ({ shared with tick_num := shared.tick_num + 1,
                     shadow_defrees := [] },
       [CloseAction.writeIndex 0, CloseAction.writeHeader shared.tick_num 0,
        CloseAction.closeFd, CloseAction.unlinkFile, CloseAction.closeFsm] ++
         shared.shadow_defrees.map CloseAction.freeDefree) := rfl

/-- C10: with no in-memory index mirror (mdf_idx NULL, permitted only
while tick_num ≤ 1), the delay predicate treats every page as absent
from the index and succeeds with tick_num + max_lag. -/
theorem claim_C10_delay_write_no_index (shared : H5F_shared_t) (page : Nat)
    (hidx : shared.mdf_idx = none) (_htick : shared.tick_num ≤ 1) :
    H5F_vfd_swmr_writer__delay_write shared page =
      Except.ok (shared.tick_num + shared.vfd_swmr_config.max_lag) := by
  have hl : delay_write_lookup shared page = none := by
    unfold delay_write_lookup
    rw [hidx]
  exact delay_write_ok_of_lookup_none hl

/-- Witness for C10: the tick-1 bootstrap state answers
tick_num + max_lag for page 7. -/
theorem claim_C10_witness :
    H5F_vfd_swmr_writer__delay_write exSharedC10 7 =
      Except.ok (exSharedC10.tick_num +
        exSharedC10.vfd_swmr_config.max_lag) :=
  claim_C10_delay_write_no_index exSharedC10 7 rfl (by decide)

/-- C1: behaviour of vfd_swmr_enlarge_shadow_index at a concrete full
index.  The length doubles (4 to 8), all four old slots are copied, and
writer_index_offset moves to the newly allocated range 8192 — but the
deferred-free record pushed on the queue carries offset 8192, the NEW
index range (with the old index's encoded length), because the source
reassigns writer_index_offset before passing it to
shadow_range_defer_free; the old range at offset 4096 is never queued.
This contradicts the claim and the source's own comment, which say the
OLD index range is scheduled for deferred free. -/
theorem claim_C1_enlarge_frees_new_range :
    (vfd_swmr_enlarge_shadow_index exSharedC1).mdf_idx_len = 8 ∧
    (vfd_swmr_enlarge_shadow_index exSharedC1).writer_index_offset = 8192 ∧
    ((vfd_swmr_enlarge_shadow_index exSharedC1).mdf_idx.getD []).take 4 =
      exSharedC1.mdf_idx.getD [] ∧
    (vfd_swmr_enlarge_shadow_index exSharedC1).shadow_defrees =
      [{ offset := 8192, length := H5FD_MD_INDEX_SIZE 4, tick_num := 5 }] ∧
    exSharedC1.writer_index_offset = 4096 := by
  refine ⟨rfl, rfl, rfl, rfl, rfl⟩

/-- Helper: every record released by the reclamation phase was due,
i.e. its creation tick plus max_lag is at most the current tick. -/
theorem upd_reclaim_freed_le (tick max_lag : Nat)
    (q : List shadow_defree_t) :
    ∀ d ∈ (upd_reclaim tick max_lag q).2,
      d.tick_num + max_lag ≤ tick := by
  unfold upd_reclaim
  split
  · simp
  · intro d hd
    simp only at hd
    have := List.mem_takeWhile_imp hd
    unfold defree_expired at this
    simpa using this

/-- Helper: the head of a dropWhile result falsifies the predicate. -/
theorem head?_dropWhile_false {α : Type} (p : α → Bool) (l : List α)
    (a : α) (h : (l.dropWhile p).head? = some a) : p a = false := by
  induction l with
  | nil => simp at h
  | cons x xs ih =>
    rw [List.dropWhile_cons] at h
    by_cases hx : p x
    · rw [if_pos hx] at h
      exact ih h
    · rw [if_neg hx] at h
      simp at h
      rw [← h]
      exact Bool.of_not_eq_true hx

/-- Helper: after a reclaiming pass the record at the tail of the
surviving queue (the walk's stopping point) is still within the
window. -/
theorem upd_reclaim_rest_tail (tick max_lag : Nat)
    (q : List shadow_defree_t) (h : max_lag < tick) :
    ∀ d, (upd_reclaim tick max_lag q).1.reverse.head? = some d →
      tick < d.tick_num + max_lag := by
  unfold upd_reclaim
  rw [if_neg (by omega)]
  simp only [List.reverse_reverse]
  intro d hd
  have := head?_dropWhile_false _ _ _ hd
  unfold defree_expired at this
  simp at this
  omega

/-- C2 (amended): every deferred-free record that
H5F_update_vfd_swmr_metadata_file reclaims in tick t satisfies
t − tick_created ≥ max_lag — the code reclaims as soon as
tick_created + max_lag ≤ t, one tick earlier than the claim's strict
inequality — and the tail-to-head walk stops at the first record still
within the window: after a reclaiming pass the oldest surviving record
r has r.tick_created + max_lag > t. -/
theorem claim_C2_amended_reclaim (shared : H5F_shared_t)
    (num_entries : Nat) (index : List H5FD_vfd_swmr_idx_entry_t) :
    (∀ d ∈ (H5F_update_vfd_swmr_metadata_file shared num_entries
        index).freed,
      d.tick_num + shared.vfd_swmr_config.max_lag ≤ shared.tick_num) ∧
    (shared.vfd_swmr_config.max_lag < shared.tick_num →
      ∀ d, (H5F_update_vfd_swmr_metadata_file shared num_entries
          index).shared.shadow_defrees.reverse.head? = some d →
        shared.tick_num < d.tick_num + shared.vfd_swmr_config.max_lag) := by
  constructor
  · intro d hd
    exact upd_reclaim_freed_le shared.tick_num
      shared.vfd_swmr_config.max_lag
      (upd_loop shared num_entries index).defrees d hd
  · intro h d hd
    exact upd_reclaim_rest_tail shared.tick_num
      shared.vfd_swmr_config.max_lag
      (upd_loop shared num_entries index).defrees h d hd

/-- Witness for the amended C2: the record created at tick 1 is
reclaimed at tick 2 with max_lag 1, at the boundary
tick_created + max_lag = tick. -/
theorem claim_C2_amended_witness :
    (1 : Nat) + exSharedC2.vfd_swmr_config.max_lag ≤ exSharedC2.tick_num :=
  (claim_C2_amended_reclaim exSharedC2 0 []).1
    { offset := 100, length := 10, tick_num := 1 } (by decide)

/-- Counterexample to C2 as stated: with max_lag 1, the record created
at tick 1 is reclaimed by the tick-2 update although
2 − 1 > 1 fails — the code's reclamation bound is ≥ max_lag, not
strictly greater. -/
theorem claim_C2_counterexample :
    ¬ (∀ d ∈ (H5F_update_vfd_swmr_metadata_file exSharedC2 0 []).freed,
        exSharedC2.tick_num - d.tick_num >
          exSharedC2.vfd_swmr_config.max_lag) := by decide

/-- Helper: an entry with no pending image leaves the write trace
untouched. -/
theorem upd_process_one_events_none {tick ps : Nat} {acc : upd_acc_t}
    {e : H5FD_vfd_swmr_idx_entry_t} (he : e.entry_ptr = none) :
    (upd_process_one tick ps acc e).events = acc.events := by
  unfold upd_process_one
  rw [he]

/-- Helper: an entry with no pending image is passed through unchanged. -/
theorem upd_process_one_out_none {tick ps : Nat} {acc : upd_acc_t}
    {e : H5FD_vfd_swmr_idx_entry_t} (he : e.entry_ptr = none) :
    (upd_process_one tick ps acc e).out = acc.out ++ [e] := by
  unfold upd_process_one
  rw [he]

/-- Helper: an entry with a pending image appends exactly one page-image
write at the freshly allocated address. -/
theorem upd_process_one_events_some {tick ps : Nat} {acc : upd_acc_t}
    {e : H5FD_vfd_swmr_idx_entry_t} {img : List Nat}
    (he : e.entry_ptr = some img) :
    (upd_process_one tick ps acc e).events = acc.events ++
      [WriteEvent.image (H5MV_alloc acc.md_eoa ps e.length).1 e.length] := by
  unfold upd_process_one
  rw [he]

/-- Helper: an entry with a pending image is appended with its shadow
location and checksum updated and its image pointer cleared. -/
theorem upd_process_one_out_some {tick ps : Nat} {acc : upd_acc_t}
    {e : H5FD_vfd_swmr_idx_entry_t} {img : List Nat}
    (he : e.entry_ptr = some img) :
    (upd_process_one tick ps acc e).out = acc.out ++
      [{ e with
           md_file_page_offset := (H5MV_alloc acc.md_eoa ps e.length).1 / ps,
           chksum := H5_checksum_metadata img,
           entry_ptr := none }] := by
  unfold upd_process_one
  rw [he]

/-- Helper: the per-entry loop appends to the write trace exactly one
image event per entry with a pending image, and nothing else. -/
theorem upd_fold_events_shape (tick ps : Nat)
    (l : List H5FD_vfd_swmr_idx_entry_t) (acc : upd_acc_t) :
    ∃ tl, (l.foldl (upd_process_one tick ps) acc).events =
        acc.events ++ tl ∧
      (∀ ev ∈ tl, ev.isImage = true) ∧
      tl.length = (l.filter (fun e => e.entry_ptr.isSome)).length := by
  induction l generalizing acc with
  | nil => exact ⟨[], by simp, by simp, by simp⟩
  | cons e l ih =>
    obtain ⟨tl, h1, h2, h3⟩ := ih (upd_process_one tick ps acc e)
    rw [List.foldl_cons]
    cases he : e.entry_ptr with
    | none =>
      refine ⟨tl, ?_, h2, ?_⟩
      · rw [h1, upd_process_one_events_none he]
      · rw [h3, List.filter_cons]
        simp [he]
    | some img =>
      refine ⟨WriteEvent.image (H5MV_alloc acc.md_eoa ps e.length).1
          e.length :: tl, ?_, ?_, ?_⟩
      · rw [h1, upd_process_one_events_some he, List.append_assoc]
        rfl
      · intro ev hev
        rcases List.mem_cons.mp hev with h | h
        · rw [h]
          rfl
        · exact h2 ev h
      · rw [List.filter_cons]
        simp [he, h3]

/-- Helper: the per-entry loop preserves the HDF5 page offsets of the
processed entries, in order. -/
theorem upd_fold_out_keys (tick ps : Nat)
    (l : List H5FD_vfd_swmr_idx_entry_t) (acc : upd_acc_t) :
    ((l.foldl (upd_process_one tick ps) acc).out).map
        (fun e => e.hdf5_page_offset) =
      acc.out.map (fun e => e.hdf5_page_offset) ++
        l.map (fun e => e.hdf5_page_offset) := by
  induction l generalizing acc with
  | nil => simp
  | cons e l ih =>
    rw [List.foldl_cons, ih]
    cases he : e.entry_ptr with
    | none =>
      rw [upd_process_one_out_none he]
      simp
    | some img =>
      rw [upd_process_one_out_some he]
      simp

/-- Helper: the image-write prefix of the trace of
H5F_update_vfd_swmr_metadata_file, followed by the index write and the
header write. -/
theorem update_events_decomp (shared : H5F_shared_t) (num_entries : Nat)
    (index : List H5FD_vfd_swmr_idx_entry_t) :
    ∃ tl, (H5F_update_vfd_swmr_metadata_file shared num_entries
        index).events = tl ++
        [H5F__vfd_swmr_construct_write_md_idx shared num_entries
          (H5F_update_vfd_swmr_metadata_file shared num_entries index).index,
         H5F__vfd_swmr_construct_write_md_hdr shared num_entries] ∧
      (∀ ev ∈ tl, ev.isImage = true) ∧
      tl.length = ((sortIndex (index.take num_entries)).filter
        (fun e => e.entry_ptr.isSome)).length := by
  obtain ⟨tl, h1, h2, h3⟩ := upd_fold_events_shape shared.tick_num
    shared.fs_page_size (sortIndex (index.take num_entries))
    (upd_initial_acc shared)
  refine ⟨tl, ?_, h2, h3⟩
  show (upd_loop shared num_entries index).events ++ _ = _
  rw [show (upd_loop shared num_entries index).events =
        (upd_initial_acc shared).events ++ tl from h1]
  rfl

/-- C4: within one call of H5F_update_vfd_swmr_metadata_file the shadow
writes occur in strict order — every page-image write (one per entry
with a pending image) precedes the single encoded-index write at
writer_index_offset, which precedes the single encoded-header write,
the last write of the call. -/
theorem claim_C4_write_order (shared : H5F_shared_t) (num_entries : Nat)
    (index : List H5FD_vfd_swmr_idx_entry_t) :
    (H5F_update_vfd_swmr_metadata_file shared num_entries index).events =
      ((H5F_update_vfd_swmr_metadata_file shared num_entries
          index).events.filter (fun ev => ev.isImage)) ++
        [H5F__vfd_swmr_construct_write_md_idx shared num_entries
          (H5F_update_vfd_swmr_metadata_file shared num_entries index).index,
         H5F__vfd_swmr_construct_write_md_hdr shared num_entries] ∧
    ((H5F_update_vfd_swmr_metadata_file shared num_entries
        index).events.filter (fun ev => ev.isImage)).length =
      ((index.take num_entries).filter
        (fun e => e.entry_ptr.isSome)).length := by
  obtain ⟨tl, h1, h2, h3⟩ := update_events_decomp shared num_entries index
  have hfilter : (H5F_update_vfd_swmr_metadata_file shared num_entries
      index).events.filter (fun ev => ev.isImage) = tl := by
    rw [h1, List.filter_append]
    rw [List.filter_eq_self.mpr h2]
    simp [H5F__vfd_swmr_construct_write_md_idx,
      H5F__vfd_swmr_construct_write_md_hdr, WriteEvent.isImage]
  constructor
  · rw [hfilter, ← h1]
  · rw [hfilter, h3, ← List.countP_eq_length_filter,
      ← List.countP_eq_length_filter]
    exact (List.perm_insertionSort idx_entry_le
      (index.take num_entries)).countP_eq _

/-- Helper: keys of the processed index are exactly the keys of the
sorted input slice. -/
theorem update_index_keys (shared : H5F_shared_t) (num_entries : Nat)
    (index : List H5FD_vfd_swmr_idx_entry_t) :
    ((H5F_update_vfd_swmr_metadata_file shared num_entries
        index).index).map (fun e => e.hdf5_page_offset) =
      (sortIndex (index.take num_entries)).map
        (fun e => e.hdf5_page_offset) := by
  show ((upd_loop shared num_entries index).out).map _ = _
  unfold upd_loop
  rw [upd_fold_out_keys shared.tick_num shared.fs_page_size
    (sortIndex (index.take num_entries)) (upd_initial_acc shared)]
  rfl

/-- C5: when the first num_entries keys are pairwise distinct (the
precondition the source asserts after its qsort), the index entries
carried by the index write — which immediately precedes the single
header write of H5F_update_vfd_swmr_metadata_file — are strictly
ascending in hdf5_page_offset at every adjacent pair, hence
key-unique. -/
theorem claim_C5_index_sorted_before_header (shared : H5F_shared_t)
    (num_entries : Nat) (index : List H5FD_vfd_swmr_idx_entry_t)
    (hnodup : ((index.take num_entries).map
      (fun e => e.hdf5_page_offset)).Nodup) :
    idx_sorted (H5F_update_vfd_swmr_metadata_file shared num_entries
      index).index ∧
    List.Chain' (fun a b => a.hdf5_page_offset < b.hdf5_page_offset)
      (H5F_update_vfd_swmr_metadata_file shared num_entries index).index ∧
    (H5F_update_vfd_swmr_metadata_file shared num_entries index).events =
      ((H5F_update_vfd_swmr_metadata_file shared num_entries
          index).events.filter (fun ev => ev.isImage)) ++
        [H5F__vfd_swmr_construct_write_md_idx shared num_entries
          (H5F_update_vfd_swmr_metadata_file shared num_entries index).index,
         H5F__vfd_swmr_construct_write_md_hdr shared num_entries] := by
  have hsorted : List.Pairwise idx_entry_le
      (sortIndex (index.take num_entries)) :=
    List.sorted_insertionSort idx_entry_le (index.take num_entries)
  have hperm : List.Perm (sortIndex (index.take num_entries))
      (index.take num_entries) :=
    List.perm_insertionSort idx_entry_le (index.take num_entries)
  have hkeysle : List.Pairwise (fun a b : Nat => a ≤ b)
      ((sortIndex (index.take num_entries)).map
        (fun e => e.hdf5_page_offset)) :=
    List.pairwise_map.mpr hsorted
  have hkeysnodup : ((sortIndex (index.take num_entries)).map
      (fun e => e.hdf5_page_offset)).Nodup :=
    ((hperm.map (fun e => e.hdf5_page_offset)).nodup_iff).mpr hnodup
  have hkeyslt : List.Pairwise (fun a b : Nat => a < b)
      ((sortIndex (index.take num_entries)).map
        (fun e => e.hdf5_page_offset)) :=
    (hkeysle.and hkeysnodup).imp
      (fun h => Nat.lt_of_le_of_ne h.1 h.2)
  have hidx : idx_sorted (H5F_update_vfd_swmr_metadata_file shared
      num_entries index).index := by
    unfold idx_sorted
    have := List.pairwise_map.mp
      (update_index_keys shared num_entries index ▸ hkeyslt)
    exact this
  refine ⟨hidx, hidx.chain', ?_⟩
  obtain ⟨tl, h1, h2, h3⟩ := update_events_decomp shared num_entries index
  have hfilter : (H5F_update_vfd_swmr_metadata_file shared num_entries
      index).events.filter (fun ev => ev.isImage) = tl := by
    rw [h1, List.filter_append]
    rw [List.filter_eq_self.mpr h2]
    simp [H5F__vfd_swmr_construct_write_md_idx,
      H5F__vfd_swmr_construct_write_md_hdr, WriteEvent.isImage]
  rw [hfilter, ← h1]

/-- Witness for C5 at a concrete state: two used entries with distinct
pages 7 and 3 are written back strictly sorted. -/
theorem claim_C5_witness :
    idx_sorted (H5F_update_vfd_swmr_metadata_file exSharedC4 2
      (exSharedC4.mdf_idx.getD [])).index :=
  (claim_C5_index_sorted_before_header exSharedC4 2
    (exSharedC4.mdf_idx.getD []) (by decide)).1

/-- Helper: the deadline order is total — timespeccmp's lexicographic
comparison never leaves two deadlines unordered. -/
theorem eot_le_total {a b : eot_queue_entry_t}
    (h : eot_le a b = false) : eot_le b a = true := by
  unfold eot_le timespec_le at h ⊢
  split_ifs at h ⊢ with h1 h2 <;> simp_all <;> omega

/-- Helper: the deadline order is transitive. -/
theorem eot_le_trans {a b c : eot_queue_entry_t}
    (h1 : eot_le a b = true) (h2 : eot_le b c = true) :
    eot_le a c = true := by
  unfold eot_le timespec_le at h1 h2 ⊢
  split_ifs at h1 h2 ⊢ <;> simp_all <;> omega

/-- Helper: the tail-to-head scan splits the reversed queue at the first
scanned entry whose deadline is at most the new entry's. -/
theorem eot_insert_scan_eq (rq : List eot_queue_entry_t)
    (e : eot_queue_entry_t) :
    eot_insert_scan rq e =
      rq.takeWhile (fun x => !eot_le x e) ++
        e :: rq.dropWhile (fun x => !eot_le x e) := by
  induction rq with
  | nil => rfl
  | cons x xs ih =>
    unfold eot_insert_scan
    by_cases h : eot_le x e
    · simp [h, List.takeWhile_cons, List.dropWhile_cons]
    · simp [h, List.takeWhile_cons, List.dropWhile_cons, ih]

/-- Helper: in a sorted queue, every entry surviving the dropWhile over
the deadline bound fails the bound (the bound-satisfying entries form a
prefix). -/
theorem eot_sorted_dropWhile_not_le {q : List eot_queue_entry_t}
    {e : eot_queue_entry_t} (hq : eot_sorted q) :
    ∀ x ∈ q.dropWhile (fun x => eot_le x e), eot_le x e = false := by
  induction q with
  | nil => simp
  | cons a q ih =>
    rw [List.dropWhile_cons]
    obtain ⟨hpa, hq1⟩ := List.pairwise_cons.mp hq
    by_cases ha : eot_le a e = true
    · rw [if_pos (by simpa using ha)]
      exact ih hq1
    · rw [if_neg (by simpa using ha)]
      intro x hx
      rcases List.mem_cons.mp hx with h | h
      · subst h
        exact Bool.eq_false_iff.mpr ha
      · cases hxe : eot_le x e with
        | false => rfl
        | true => exact absurd (eot_le_trans (hpa x h) hxe) ha

/-- Helper: takeWhile over an append whose first part wholly satisfies
the predicate. -/
theorem takeWhile_append_all {α : Type} {p : α → Bool} {l1 l2 : List α}
    (h : ∀ x ∈ l1, p x = true) :
    (l1 ++ l2).takeWhile p = l1 ++ l2.takeWhile p := by
  induction l1 with
  | nil => simp
  | cons a l1 ih =>
    rw [List.cons_append, List.takeWhile_cons,
      if_pos (h a (List.mem_cons_self a l1)), ih (fun x hx =>
        h x (List.mem_cons_of_mem a hx))]
    rfl

/-- Helper: dropWhile over an append whose first part wholly satisfies
the predicate. -/
theorem dropWhile_append_all {α : Type} {p : α → Bool} {l1 l2 : List α}
    (h : ∀ x ∈ l1, p x = true) :
    (l1 ++ l2).dropWhile p = l2.dropWhile p := by
  induction l1 with
  | nil => simp
  | cons a l1 ih =>
    rw [List.cons_append, List.dropWhile_cons,
      if_pos (h a (List.mem_cons_self a l1))]
    exact ih (fun x hx => h x (List.mem_cons_of_mem a hx))

/-- Helper: takeWhile of a list that wholly fails the predicate. -/
theorem takeWhile_eq_nil_all {α : Type} {p : α → Bool} {l : List α}
    (h : ∀ x ∈ l, p x = false) : l.takeWhile p = [] := by
  cases l with
  | nil => rfl
  | cons a l =>
    rw [List.takeWhile_cons, if_neg (by simp [h a (List.mem_cons_self a l)])]

/-- Helper: dropWhile of a list that wholly fails the predicate. -/
theorem dropWhile_eq_self_all {α : Type} {p : α → Bool} {l : List α}
    (h : ∀ x ∈ l, p x = false) : l.dropWhile p = l := by
  cases l with
  | nil => rfl
  | cons a l =>
    rw [List.dropWhile_cons, if_neg (by simp [h a (List.mem_cons_self a l)])]

/-- C9: H5F_vfd_swmr_insert_entry_eot preserves the EOT queue's
ascending-deadline ordering — on a sorted queue the new entry lands
immediately after the (rightmost) prefix of entries whose end_of_tick is
at most the new entry's, hence at the head when no such entry exists,
and the resulting queue is sorted again (ties keep insertion order
because the scan stops at the rightmost such predecessor). -/
theorem claim_C9_insert_entry_eot (q : List eot_queue_entry_t)
    (entry_ptr : eot_queue_entry_t) (hq : eot_sorted q) :
    H5F_vfd_swmr_insert_entry_eot q entry_ptr =
      q.takeWhile (fun x => eot_le x entry_ptr) ++ entry_ptr ::
        q.dropWhile (fun x => eot_le x entry_ptr) ∧
    eot_sorted (H5F_vfd_swmr_insert_entry_eot q entry_ptr) := by
  have hA : ∀ x ∈ q.takeWhile (fun x => eot_le x entry_ptr),
      eot_le x entry_ptr = true := by
    intro x hx
    have h := List.mem_takeWhile_imp hx
    simpa using h
  have hB : ∀ x ∈ q.dropWhile (fun x => eot_le x entry_ptr),
      eot_le x entry_ptr = false :=
    eot_sorted_dropWhile_not_le hq
  have hq_split : q = q.takeWhile (fun x => eot_le x entry_ptr) ++
      q.dropWhile (fun x => eot_le x entry_ptr) :=
    (List.takeWhile_append_dropWhile _ q).symm
  have hBrev : ∀ x ∈ (q.dropWhile (fun x => eot_le x entry_ptr)).reverse,
      (!eot_le x entry_ptr) = true := by
    intro x hx
    simp [hB x (List.mem_reverse.mp hx)]
  have hArev : ∀ x ∈ (q.takeWhile (fun x => eot_le x entry_ptr)).reverse,
      (!eot_le x entry_ptr) = false := by
    intro x hx
    simp [hA x (List.mem_reverse.mp hx)]
  have h1 : q.reverse.takeWhile (fun x => !eot_le x entry_ptr) =
      (q.dropWhile (fun x => eot_le x entry_ptr)).reverse := by
    conv_lhs => rw [hq_split, List.reverse_append]
    rw [takeWhile_append_all hBrev, takeWhile_eq_nil_all hArev,
      List.append_nil]
  have h2 : q.reverse.dropWhile (fun x => !eot_le x entry_ptr) =
      (q.takeWhile (fun x => eot_le x entry_ptr)).reverse := by
    conv_lhs => rw [hq_split, List.reverse_append]
    rw [dropWhile_append_all hBrev, dropWhile_eq_self_all hArev]
  have heq : H5F_vfd_swmr_insert_entry_eot q entry_ptr =
      q.takeWhile (fun x => eot_le x entry_ptr) ++ entry_ptr ::
        q.dropWhile (fun x => eot_le x entry_ptr) := by
    unfold H5F_vfd_swmr_insert_entry_eot
    rw [eot_insert_scan_eq, h1, h2, List.reverse_append,
      List.reverse_cons, List.reverse_reverse, List.reverse_reverse]
    simp
  refine ⟨heq, ?_⟩
  rw [heq]
  have hpq := hq_split ▸ hq
  obtain ⟨hPA, hPB, hcross⟩ := List.pairwise_append.mp hpq
  apply List.pairwise_append.mpr
  refine ⟨hPA, ?_, ?_⟩
  · apply List.pairwise_cons.mpr
    refine ⟨?_, hPB⟩
    intro b hb
    exact eot_le_total (hB b hb)
  · intro a ha y hy
    rcases List.mem_cons.mp hy with h | h
    · subst h
      exact hA a ha
    · exact hcross a ha y h

/-- Witness for C9: inserting a deadline-2.5s entry into the sorted
queue with deadlines 1s and 3s lands it in the middle and keeps the
queue sorted. -/
theorem claim_C9_witness :
    H5F_vfd_swmr_insert_entry_eot [mkEotEntry 1 0 1, mkEotEntry 3 0 2]
        (mkEotEntry 2 500000000 3) =
      [mkEotEntry 1 0 1, mkEotEntry 2 500000000 3, mkEotEntry 3 0 2] ∧
    eot_sorted (H5F_vfd_swmr_insert_entry_eot
      [mkEotEntry 1 0 1, mkEotEntry 3 0 2] (mkEotEntry 2 500000000 3)) := by
  have h := claim_C9_insert_entry_eot [mkEotEntry 1 0 1, mkEotEntry 3 0 2]
    (mkEotEntry 2 500000000 3) (by decide)
  refine ⟨?_, h.2⟩
  rw [h.1]
  decide

/-- Helper: unpacking of the strict-sortedness invariant at a cons. -/
theorem idx_sorted_cons {o : H5FD_vfd_swmr_idx_entry_t}
    {os : List H5FD_vfd_swmr_idx_entry_t} (h : idx_sorted (o :: os)) :
    idx_sorted os ∧
      ∀ e ∈ os, o.hdf5_page_offset < e.hdf5_page_offset := by
  unfold idx_sorted at h ⊢
  rw [List.pairwise_cons] at h
  exact ⟨h.2, h.1⟩

/-- Helper: against an empty new index, the reader merge reports every
old page as removed. -/
theorem readerDiff_nil_right (l : List H5FD_vfd_swmr_idx_entry_t) :
    readerDiff l [] = l.map (fun e => e.hdf5_page_offset) := by
  induction l with
  | nil => simp [readerDiff]
  | cons o os ih => simp [readerDiff, ih]

/-- Helper: every page the reader merge reports comes from the old
index. -/
theorem readerDiff_subset_old (old new : List H5FD_vfd_swmr_idx_entry_t) :
    ∀ p ∈ readerDiff old new, ∃ e ∈ old, e.hdf5_page_offset = p := by
  induction old, new using readerDiff.induct with
  | case1 new => simp [readerDiff]
  | case2 o os ih =>
    intro p hp
    simp only [readerDiff, List.mem_cons] at hp
    rcases hp with h | h
    · exact ⟨o, List.mem_cons_self o os, h.symm⟩
    · obtain ⟨e, he, hke⟩ := ih p h
      exact ⟨e, List.mem_cons_of_mem o he, hke⟩
  | case3 o os n ns heq ih =>
    intro p hp
    simp only [readerDiff] at hp
    rw [if_pos heq, List.mem_append] at hp
    rcases hp with h | h
    · refine ⟨o, List.mem_cons_self o os, ?_⟩
      by_cases hdm : o.md_file_page_offset ≠ n.md_file_page_offset
      · rw [if_pos hdm] at h
        simp at h
        omega
      · rw [if_neg hdm] at h
        simp at h
    · obtain ⟨e, he, hke⟩ := ih p h
      exact ⟨e, List.mem_cons_of_mem o he, hke⟩
  | case4 o os n ns hne hlt ih =>
    intro p hp
    simp only [readerDiff] at hp
    rw [if_neg hne, if_pos hlt, List.mem_cons] at hp
    rcases hp with h | h
    · exact ⟨o, List.mem_cons_self o os, h.symm⟩
    · obtain ⟨e, he, hke⟩ := ih p h
      exact ⟨e, List.mem_cons_of_mem o he, hke⟩
  | case5 o os n ns hne hnlt ih =>
    intro p hp
    simp only [readerDiff] at hp
    rw [if_neg hne, if_neg hnlt] at hp
    exact ih p hp

/-- Helper: an old-index head with the wrong key is irrelevant to the
expected eviction set. -/
theorem evict_expected_cons_old {o : H5FD_vfd_swmr_idx_entry_t}
    {os new : List H5FD_vfd_swmr_idx_entry_t} {p : Nat}
    (h : o.hdf5_page_offset ≠ p) :
    evict_expected (o :: os) new p ↔ evict_expected os new p := by
  constructor
  · rintro ⟨eo, heo, hk, hrest⟩
    rcases List.mem_cons.mp heo with he | he
    · subst he
      exact absurd hk h
    · exact ⟨eo, he, hk, hrest⟩
  · rintro ⟨eo, heo, hk, hrest⟩
    exact ⟨eo, List.mem_cons_of_mem o heo, hk, hrest⟩

/-- Helper: a new-index head with the wrong key is irrelevant to the
expected eviction set. -/
theorem evict_expected_cons_new {old : List H5FD_vfd_swmr_idx_entry_t}
    {n : H5FD_vfd_swmr_idx_entry_t}
    {ns : List H5FD_vfd_swmr_idx_entry_t} {p : Nat}
    (h : n.hdf5_page_offset ≠ p) :
    evict_expected old (n :: ns) p ↔ evict_expected old ns p := by
  constructor
  · rintro ⟨eo, heo, hk, hrest⟩
    refine ⟨eo, heo, hk, ?_⟩
    rcases hrest with ⟨en, hen, hken, hdm⟩ | hall
    · rcases List.mem_cons.mp hen with he | he
      · subst he
        exact absurd hken h
      · exact Or.inl ⟨en, he, hken, hdm⟩
    · exact Or.inr (fun en hen => hall en (List.mem_cons_of_mem n hen))
  · rintro ⟨eo, heo, hk, hrest⟩
    refine ⟨eo, heo, hk, ?_⟩
    rcases hrest with ⟨en, hen, hken, hdm⟩ | hall
    · exact Or.inl ⟨en, List.mem_cons_of_mem n hen, hken, hdm⟩
    · refine Or.inr ?_
      intro en hen
      rcases List.mem_cons.mp hen with he | he
      · subst he
        exact h
      · exact hall en he

/-- Helper: on strictly sorted old and new index slices, the reader
merge reports exactly the pages that are in the old index and either
relocated in the new index or absent from it. -/
theorem readerDiff_mem_iff :
    ∀ (old new : List H5FD_vfd_swmr_idx_entry_t), idx_sorted old →
      idx_sorted new → ∀ p : Nat,
        p ∈ readerDiff old new ↔ evict_expected old new p := by
  intro old new
  induction old, new using readerDiff.induct with
  | case1 new =>
    intro _ _ p
    simp [readerDiff, evict_expected]
  | case2 o os ih =>
    intro _ _ p
    rw [readerDiff_nil_right]
    constructor
    · intro hp
      obtain ⟨e, he, hke⟩ := List.mem_map.mp hp
      exact ⟨e, he, hke, Or.inr (fun en hen => absurd hen
        (List.not_mem_nil en))⟩
    · rintro ⟨eo, heo, hk, _⟩
      exact List.mem_map.mpr ⟨eo, heo, hk⟩
  | case3 o os n ns heq ih =>
    intro ho hn p
    obtain ⟨hos, hoall⟩ := idx_sorted_cons ho
    obtain ⟨hns, hnall⟩ := idx_sorted_cons hn
    simp only [readerDiff]
    rw [if_pos heq]
    by_cases hp : p = o.hdf5_page_offset
    · subst hp
      have hnotin : o.hdf5_page_offset ∉ readerDiff os ns := by
        intro hmem
        obtain ⟨e, he, hke⟩ := readerDiff_subset_old os ns _ hmem
        have := hoall e he
        omega
      constructor
      · intro hmem
        rcases List.mem_append.mp hmem with h | h
        · by_cases hdm : o.md_file_page_offset ≠ n.md_file_page_offset
          · exact ⟨o, List.mem_cons_self o os, rfl,
              Or.inl ⟨n, List.mem_cons_self n ns, heq.symm, hdm⟩⟩
          · rw [if_neg hdm] at h
            simp at h
        · exact absurd h hnotin
      · rintro ⟨eo, heo, hkeo, hrest⟩
        have heo_eq : eo = o := by
          rcases List.mem_cons.mp heo with h | h
          · exact h
          · have := hoall eo h
            omega
        subst heo_eq
        rcases hrest with ⟨en, hen, hken, hdm⟩ | hall
        · have hen_eq : en = n := by
            rcases List.mem_cons.mp hen with h | h
            · exact h
            · have := hnall en h
              omega
          subst hen_eq
          apply List.mem_append.mpr
          left
          rw [if_pos hdm]
          simp [heq]
        · exact absurd heq.symm (hall n (List.mem_cons_self n ns))
    · have h1 : o.hdf5_page_offset ≠ p := Ne.symm hp
      have h2 : n.hdf5_page_offset ≠ p := by
        rw [← heq]
        exact h1
      rw [evict_expected_cons_old h1, evict_expected_cons_new h2,
        List.mem_append]
      have hnotif : p ∉ (if o.md_file_page_offset ≠ n.md_file_page_offset
          then [n.hdf5_page_offset] else []) := by
        split
        · simp
          exact Ne.symm h2
        · simp
      rw [or_iff_right hnotif]
      exact ih hos hns p
  | case4 o os n ns hne hlt ih =>
    intro ho hn p
    obtain ⟨hos, hoall⟩ := idx_sorted_cons ho
    obtain ⟨hns, hnall⟩ := idx_sorted_cons hn
    simp only [readerDiff]
    rw [if_neg hne, if_pos hlt, List.mem_cons]
    by_cases hp : p = o.hdf5_page_offset
    · subst hp
      constructor
      · intro _
        refine ⟨o, List.mem_cons_self o os, rfl, Or.inr ?_⟩
        intro en hen
        rcases List.mem_cons.mp hen with he | he
        · subst he
          omega
        · have := hnall en he
          omega
      · intro _
        exact Or.inl rfl
    · rw [or_iff_right hp, evict_expected_cons_old (Ne.symm hp)]
      exact ih hos hn p
  | case5 o os n ns hne hnlt ih =>
    intro ho hn p
    obtain ⟨hos, hoall⟩ := idx_sorted_cons ho
    obtain ⟨hns, hnall⟩ := idx_sorted_cons hn
    simp only [readerDiff]
    rw [if_neg hne, if_neg hnlt]
    by_cases hp : p = n.hdf5_page_offset
    · subst hp
      constructor
      · intro hmem
        exfalso
        obtain ⟨e, he, hke⟩ := readerDiff_subset_old (o :: os) ns _ hmem
        rcases List.mem_cons.mp he with h | h
        · subst h
          omega
        · have := hoall e h
          omega
      · rintro ⟨eo, heo, hkeo, _⟩
        exfalso
        rcases List.mem_cons.mp heo with h | h
        · subst h
          omega
        · have := hoall eo h
          omega
    · rw [evict_expected_cons_new (Ne.symm hp)]
      exact ih ho hns p

/-- C6: in a reader end-of-tick that observes a new tick, with sorted
key-unique old and new indices, the set of pages evicted (first from the
page buffer, then in a second pass from the metadata cache) is exactly
the set of hdf5_page_offsets present in both indices with differing
md_file_page_offset (changed) or present only in the old index
(removed); added pages and pages in neither index are never evicted. -/
theorem claim_C6_reader_evicts_changed_and_removed (shared : H5F_shared_t)
    (tmp_tick_num : Nat) (disk_idx : List H5FD_vfd_swmr_idx_entry_t)
    (oldl : List H5FD_vfd_swmr_idx_entry_t)
    (hm : shared.mdf_idx = some oldl)
    (hu : shared.mdf_idx_entries_used = oldl.length)
    (ho : idx_sorted oldl) (hn : idx_sorted disk_idx)
    (ht : tmp_tick_num ≠ shared.tick_num) :
    (∀ p, p ∈ (H5F_vfd_swmr_reader_end_of_tick shared tmp_tick_num
        disk_idx).removed_page ↔ evict_expected oldl disk_idx p) ∧
    (H5F_vfd_swmr_reader_end_of_tick shared tmp_tick_num
        disk_idx).actions =
      (H5F_vfd_swmr_reader_end_of_tick shared tmp_tick_num
          disk_idx).removed_page.map ReaderAction.pbRemove ++
        (H5F_vfd_swmr_reader_end_of_tick shared tmp_tick_num
            disk_idx).removed_page.map ReaderAction.mdcEvictOrRefresh ++
        [ReaderAction.eotRemove, ReaderAction.eotInsert] := by
  have hrem : (H5F_vfd_swmr_reader_end_of_tick shared tmp_tick_num
      disk_idx).removed_page = readerDiff oldl disk_idx := by
    unfold H5F_vfd_swmr_reader_end_of_tick
    rw [if_pos ht]
    simp only [hm, hu, Option.getD_some, List.take_length]
  constructor
  · intro p
    rw [hrem]
    exact readerDiff_mem_iff oldl disk_idx ho hn p
  · unfold H5F_vfd_swmr_reader_end_of_tick
    rw [if_pos ht]

/-- Witness for C6, the spec's reader-diff scenario: old index has page
3 at shadow page 2; new index has page 3 relocated to shadow page 5 and
page 9 added.  Page 3 is evicted, pages 9 and 4 are not. -/
theorem claim_C6_witness :
    3 ∈ (H5F_vfd_swmr_reader_end_of_tick exSharedC6 3
        exDiskC6).removed_page ∧
    9 ∉ (H5F_vfd_swmr_reader_end_of_tick exSharedC6 3
        exDiskC6).removed_page ∧
    4 ∉ (H5F_vfd_swmr_reader_end_of_tick exSharedC6 3
        exDiskC6).removed_page := by
  have h := claim_C6_reader_evicts_changed_and_removed exSharedC6 3
    exDiskC6 [mkIdxEntry 3 2 4096] rfl rfl (by decide) (by decide)
    (by decide)
  refine ⟨(h.1 3).mpr (by decide), ?_, ?_⟩
  · intro hmem
    exact absurd ((h.1 9).mp hmem) (by decide)
  · intro hmem
    exact absurd ((h.1 4).mp hmem) (by decide)
